import Mathlib

/-!
Shallow embedding of the order-placement and wallet-settlement core of the
Micro Delivery backend (src/main.py, with document shapes from src/schemas.py).

Modelling conventions:
* Monetary amounts are rationals (ℚ).  Python's `round(x, 2)` is modelled by
  `round2`, rounding to an integer number of cents; no statement proved here
  depends on tie-breaking at the half-cent boundary.
* Mongo documents are Lean structures; a field read with `dict.get(k, default)`
  in the source is an `Option` field read with `Option.getD default` here, so
  that absent fields are representable.
* The document store (`db` / `create_document` / `get_documents`) is a `Store`
  structure holding the three collections the core touches (`product`,
  `transaction`, `order`) plus the generated-id counter.  `create_document`
  appends a record and hands out the next id.
* `datetime.now()` is an explicit `DateTime` argument: a day number (the
  `.date()` component, as ℤ so that adding days is unrestricted) and a
  time-of-day.  For a naive Python datetime, `now + timedelta(days=k)` keeps
  the clock time and moves `.date()` forward by `k` days, which is how the
  source derives delivery dates; dates are therefore day numbers and
  `+ timedelta(days=k)` is `day + k`.
* `HTTPException` raises are an `Except`-style error value.  Every raise in
  `place_order` happens before any `create_document` call, so the embedding
  returns the store unchanged alongside the error.
-/

/-- Rounding to 2 decimal places, the model of Python `round(x, 2)`. -/
def round2 (q : ℚ) : ℚ := (round (q * 100) : ℤ) / 100

/-- Python `time` value: hour, minute, second, microsecond.  Python compares
`time` values lexicographically on these four components. -/
structure PyTime where
  hour : ℕ
  minute : ℕ
  second : ℕ
  microsecond : ℕ
deriving Repr, DecidableEq

/-- Lexicographic strict comparison of Python `time` values (`t1 < t2`). -/
def PyTime.ltb (a b : PyTime) : Bool :=
  a.hour < b.hour ∨
    (a.hour = b.hour ∧ (a.minute < b.minute ∨
      (a.minute = b.minute ∧ (a.second < b.second ∨
        (a.second = b.second ∧ a.microsecond < b.microsecond)))))

/-- Naive Python `datetime`: the `.date()` component as a day number, plus the
`.time()` component. -/
structure DateTime where
  day : ℤ
  time : PyTime
deriving Repr, DecidableEq

/-- `product` document (schemas.Product); fields the core reads through
`.get(..., default)` are optional so that absent fields are representable. -/
structure ProductDoc where
  name : Option String
  price : Option ℚ
  category : Option String := none
  available : Option Bool
deriving Repr, DecidableEq

/-- `transaction` document (schemas.Transaction). -/
structure TxnDoc where
  user_id : String
  type : Option String
  amount : Option ℚ
  order_id : Option String := none
  note : Option String := none
deriving Repr, DecidableEq

/-- Embedded order line (schemas.OrderItem) as built by `place_order`:
`name` comes from `prod.get("name")`, hence optional. -/
structure OrderLine where
  product_id : String
  name : Option String
  price : ℚ
  qty : ℕ
deriving Repr, DecidableEq

/-- `order` document (schemas.Order) as built by `place_order`. -/
structure OrderDoc where
  user_id : String
  items : List OrderLine
  subtotal : ℚ
  delivery_date : ℤ
  status : String
deriving Repr, DecidableEq

/-- The document store: the three collections the core touches, keyed
collections as association lists in insertion order, plus the counter that
stands in for ObjectId generation. -/
structure Store where
  products : List (String × ProductDoc)
  transactions : List TxnDoc
  orders : List (String × OrderDoc)
  users : List String := []
  nextId : ℕ := 0
deriving Repr, DecidableEq

/-- The id `create_document` generates for the `n`-th insertion. -/
def genId (n : ℕ) : String := "id_" ++ toString n

/-- `db["product"].find_one({"_id": oid})`. -/
def findProduct (store : Store) (pid : String) : Option ProductDoc :=
  (store.products.find? (fun e => e.1 = pid)).map (fun e => e.2)

/-- Body of the loop in `compute_wallet_balance`: add credit amounts,
subtract debit amounts, ignore any other kind. -/
def balanceStep (b : ℚ) (t : TxnDoc) : ℚ :=
  let amt := t.amount.getD 0
  if t.type = some "credit" then b + amt
  else if t.type = some "debit" then b - amt
  else b

/-- `compute_wallet_balance` (src/main.py lines 152-161): fold the user's
transactions through `balanceStep`, then round to 2 decimals. -/
def compute_wallet_balance (store : Store) (user_id : String) : ℚ :=
  let txns := store.transactions.filter (fun t => t.user_id = user_id)
  let balance := txns.foldl balanceStep 0
  round2 balance

/-- `get_delivery_date` (src/main.py lines 164-169): strictly before the
`cutoffHour:00` time-of-day ships next day, otherwise the day after. -/
def get_delivery_date (cutoffHour : ℕ) (now : DateTime) : ℤ :=
  let cutoff : PyTime := ⟨cutoffHour, 0, 0, 0⟩
  if PyTime.ltb now.time cutoff then now.day + 1 else now.day + 2

/-- `GET /api/wallet/balance` (src/main.py lines 221-223): returns the user id
and the computed balance; it never consults the `user` collection. -/
def wallet_balance (store : Store) (user_id : String) : String × ℚ :=
  (user_id, compute_wallet_balance store user_id)

/-- A line of a `PlaceOrderRequest` (PlaceOrderItem): the caller supplies only
the product id and a positive quantity. -/
structure PlaceOrderItem where
  product_id : String
  qty : ℕ
deriving Repr, DecidableEq

/-- `PlaceOrderRequest` body: user id and item list. -/
structure PlaceOrderRequest where
  user_id : String
  items : List PlaceOrderItem
deriving Repr, DecidableEq

/-- The error taxonomy raised by `place_order` (spec section 7), with the data
each `HTTPException` detail carries: `invalidInput` is the 400
"No items in order", `notFound pid` the 404 naming the product id,
`invalidState name` the 400 naming the unavailable product, and
`insufficientFunds` the 402 carrying required_topup, balance and subtotal. -/
inductive OrderError where
  | invalidInput : OrderError
  | notFound (productId : String) : OrderError
  | invalidState (productName : String) : OrderError
  | insufficientFunds (requiredTopup balance subtotal : ℚ) : OrderError
deriving Repr, DecidableEq

/-- Successful `place_order` response body. -/
structure PlaceOrderResponse where
  order_id : String
  delivery_date : ℤ
  subtotal : ℚ
  balance : ℚ
  status : String
deriving Repr, DecidableEq

/-- One iteration of the product-verification loop in `place_order`
(src/main.py lines 285-291): fetch the product, 404 if missing, 400 if its
`available` field (defaulting to true when absent) is false. -/
def fetchValidated (store : Store) (pid : String) : Except OrderError ProductDoc :=
  match findProduct store pid with
  | none => .error (.notFound pid)
  | some prod =>
      if prod.available.getD true = false then
        .error (.invalidState (prod.name.getD ""))
      else
        .ok prod

/-- The `lookup` dict built by the verification loop, as an association list in
iteration order; the loop stops at the first failing product id. -/
def buildLookup (store : Store) : List String → Except OrderError (List (String × ProductDoc))
  | [] => .ok []
  | pid :: rest =>
      match fetchValidated store pid with
      | .error e => .error e
      | .ok prod =>
          match buildLookup store rest with
          | .error e => .error e
          | .ok l => .ok ((pid, prod) :: l)

/-- `lookup[it.product_id]`.  The verification loop guarantees every requested
id has an entry, so the default record is unreachable on the paths
`place_order` takes. -/
def lookupProd (lk : List (String × ProductDoc)) (pid : String) : ProductDoc :=
  ((lk.find? (fun e => e.1 = pid)).map (fun e => e.2)).getD ⟨none, none, none, none⟩

/-- One order line as built by the pricing loop (src/main.py lines 295-305):
id and quantity from the request, name and price snapshotted from the fetched
product (`prod.get("name")`, `float(prod.get("price", 0))`). -/
def build_line (lk : List (String × ProductDoc)) (it : PlaceOrderItem) : OrderLine :=
  let prod := lookupProd lk it.product_id
  { product_id := it.product_id
    name := prod.name
    price := prod.price.getD 0
    qty := it.qty }

/-- `create_document`: append the record and hand out the generated id. -/
def createOrder (store : Store) (od : OrderDoc) : String × Store :=
  (genId store.nextId,
   { store with orders := store.orders ++ [(genId store.nextId, od)]
                nextId := store.nextId + 1 })

/-- `create_document` on the `transaction` collection. -/
def createTxn (store : Store) (t : TxnDoc) : Store :=
  { store with transactions := store.transactions ++ [t]
               nextId := store.nextId + 1 }

/-- `place_order` (src/main.py lines 275-350), after the ownership check:
reject empty item lists; verify and fetch every requested product; build the
snapshot lines and the rounded subtotal (the source accumulates
`subtotal += price * qty` in the same loop that builds the lines, so the
subtotal is the sum of `price * qty` over the built lines); check the wallet;
compute the delivery date; create the order record and the debit transaction;
return the recomputed balance.  Every raise happens before any write, so error
results carry the store unchanged. -/
def place_order (store : Store) (now : DateTime) (cutoffHour : ℕ)
    (req : PlaceOrderRequest) : Store × Except OrderError PlaceOrderResponse :=
  if req.items = [] then (store, .error .invalidInput)
  else
    let product_ids := req.items.map (fun i => i.product_id)
    match buildLookup store product_ids with
    | .error e => (store, .error e)
    | .ok lookup =>
        let order_items := req.items.map (build_line lookup)
        let subtotal := round2 ((order_items.map (fun l => l.price * (l.qty : ℚ))).sum)
        let balance := compute_wallet_balance store req.user_id
        if balance < subtotal then
          (store, .error (.insufficientFunds (round2 (subtotal - balance)) balance subtotal))
        else
          let delivery := get_delivery_date cutoffHour now
          let order_doc : OrderDoc :=
            { user_id := req.user_id
              items := order_items
              subtotal := subtotal
              delivery_date := delivery
              status := "placed" }
          let (order_id, store1) := createOrder store order_doc
          let debit : TxnDoc :=
            { user_id := req.user_id
              type := some "debit"
              amount := some subtotal
              order_id := some order_id
              note := some ("Order " ++ order_id ++ " payment") }
          let store2 := createTxn store1 debit
          let new_balance := compute_wallet_balance store2 req.user_id
          (store2, .ok { order_id := order_id
                         delivery_date := delivery
                         subtotal := subtotal
                         balance := new_balance
                         status := "confirmed" })

/-- `ProductUpdate` body: every field optional; `None` fields are dropped
before the `$set`. -/
structure ProductUpdate where
  name : Option String := none
  price : Option ℚ := none
  category : Option String := none
  image_url : Option String := none
  available : Option Bool := none
deriving Repr, DecidableEq

/-- Apply the non-`None` fields of a `ProductUpdate` to a product record
(the `$set` of src/main.py line 260). -/
def applyUpdate (upd : ProductUpdate) (p : ProductDoc) : ProductDoc :=
  { p with
      name := match upd.name with | some v => some v | none => p.name
      price := match upd.price with | some v => some v | none => p.price
      category := match upd.category with | some v => some v | none => p.category
      available := match upd.available with | some v => some v | none => p.available }

/-- `update_product` (src/main.py lines 255-263): drop `None` fields, no-op if
nothing is left, otherwise `$set` the fields on the matching product record
(404 if no record matches).  Only the `product` collection is touched. -/
def update_product (store : Store) (product_id : String) (upd : ProductUpdate) :
    Store × Except OrderError Bool :=
  if upd.name = none ∧ upd.price = none ∧ upd.category = none ∧
      upd.image_url = none ∧ upd.available = none then
    (store, .ok false)
  else
    match findProduct store product_id with
    | none => (store, .error (.notFound product_id))
    | some _ =>
        ({ store with
            products := store.products.map
              (fun e => if e.1 = product_id then (e.1, applyUpdate upd e.2) else e) },
         .ok true)

/-- One consolidated line of the fulfillment summary. -/
structure SummaryEntry where
  product_id : String
  name : Option String
  total_qty : ℕ
deriving Repr, DecidableEq

/-- Fulfillment summary response. -/
structure Summary where
  date : ℤ
  items : List SummaryEntry
  order_count : ℕ
deriving Repr, DecidableEq

/-- One step of the consolidation loop (src/main.py lines 360-370): a first
occurrence of a product id appends a fresh entry carrying that line's name,
any occurrence adds the line's quantity to the entry (the source initialises
`total_qty` to 0 and then `+=`s).  Insertion order of a Python dict is the
append order here. -/
def addItem (acc : List SummaryEntry) (it : OrderLine) : List SummaryEntry :=
  if acc.any (fun e => e.product_id = it.product_id) then
    acc.map (fun e =>
      if e.product_id = it.product_id then
        { e with total_qty := e.total_qty + it.qty }
      else e)
  else
    acc ++ [{ product_id := it.product_id, name := it.name, total_qty := it.qty }]

/-- The status filter of the summary query: `{"$in": ["placed", "packed"]}`. -/
def summaryStatus (o : OrderDoc) : Bool := o.status = "placed" ∨ o.status = "packed"

/-- `summary_next_morning` (src/main.py lines 353-376): select orders whose
stored delivery date is `now.date() + 1` with status placed or packed, then
consolidate their lines product id by product id. -/
def summary_next_morning (store : Store) (now : DateTime) : Summary :=
  let tomorrow : ℤ := now.day + 1
  let orders := store.orders.filter
    (fun e => e.2.delivery_date = tomorrow ∧ summaryStatus e.2)
  let consolidated := orders.foldl (fun acc e => e.2.items.foldl addItem acc) []
  { date := tomorrow
    items := consolidated
    order_count := orders.length }

/-! ### Helper lemmas about the balance fold and rounding -/

/-- Signed contribution of one transaction to the running balance. -/
def txnDelta (t : TxnDoc) : ℚ :=
  if t.type = some "credit" then t.amount.getD 0
  else if t.type = some "debit" then -(t.amount.getD 0)
  else 0

lemma balanceStep_eq (b : ℚ) (t : TxnDoc) : balanceStep b t = b + txnDelta t := by
  unfold balanceStep txnDelta
  by_cases hc : t.type = some "credit"
  · simp [hc]
  · by_cases hd : t.type = some "debit"
    · simp [hc, hd]
      ring
    · simp [hc, hd]

lemma balance_foldl (l : List TxnDoc) (b : ℚ) :
    l.foldl balanceStep b = b + (l.map txnDelta).sum := by
  induction l generalizing b with
  | nil => simp
  | cons t l ih =>
      rw [List.foldl_cons, ih, balanceStep_eq, List.map_cons, List.sum_cons]
      ring

lemma compute_wallet_balance_eq (store : Store) (uid : String) :
    compute_wallet_balance store uid =
      round2 (((store.transactions.filter (fun t => t.user_id = uid)).map txnDelta).sum) := by
  unfold compute_wallet_balance
  simp only [balance_foldl, zero_add]

lemma txnDelta_sum_split (l : List TxnDoc) :
    (l.map txnDelta).sum =
      ((l.filter (fun t => t.type = some "credit")).map (fun t => t.amount.getD 0)).sum -
      ((l.filter (fun t => t.type = some "debit")).map (fun t => t.amount.getD 0)).sum := by
  induction l with
  | nil => simp
  | cons t l ih =>
      by_cases hc : t.type = some "credit"
      · have hd : ¬ t.type = some "debit" := by simp [hc]
        simp [txnDelta, hc, hd, ih]; ring
      · by_cases hd : t.type = some "debit"
        · simp [txnDelta, hc, hd, ih]; ring
        · simp [txnDelta, hc, hd, ih]

lemma round2_cents (n : ℤ) : round2 ((n : ℚ) / 100) = (n : ℚ) / 100 := by
  unfold round2
  rw [div_mul_cancel₀ _ (by norm_num : (100 : ℚ) ≠ 0), round_intCast]

lemma round2_sub_cents (q : ℚ) (n : ℤ) :
    round2 (q - (n : ℚ) / 100) = round2 q - (n : ℚ) / 100 := by
  unfold round2
  rw [sub_mul, div_mul_cancel₀ _ (by norm_num : (100 : ℚ) ≠ 0), round_sub_int]
  push_cast
  ring

/-! ### C2, C3, C8, C9, C10 -/

/-- C2: `compute_wallet_balance` returns the sum of the user's credit amounts
minus the sum of the user's debit amounts, rounded to 2 decimals; transactions
of any other kind are ignored, and permuting the transaction log does not
change the result. -/
theorem claim_C2 (store : Store) (uid : String) :
    compute_wallet_balance store uid =
      round2
        ((((store.transactions.filter (fun t => t.user_id = uid)).filter
            (fun t => t.type = some "credit")).map (fun t => t.amount.getD 0)).sum -
         (((store.transactions.filter (fun t => t.user_id = uid)).filter
            (fun t => t.type = some "debit")).map (fun t => t.amount.getD 0)).sum) ∧
    ∀ store₂ : Store, store.transactions.Perm store₂.transactions →
      compute_wallet_balance store uid = compute_wallet_balance store₂ uid := by
  constructor
  · rw [compute_wallet_balance_eq, txnDelta_sum_split]
  · intro store₂ hp
    rw [compute_wallet_balance_eq, compute_wallet_balance_eq]
    exact congrArg round2 (List.Perm.sum_eq ((hp.filter _).map _))

/-- Store with one credit, one debit and one unknown-kind transaction. -/
def storeC2a : Store :=
  ⟨[], [⟨"u1", some "credit", some 20, none, none⟩,
        ⟨"u1", some "debit", some 3, none, none⟩,
        ⟨"u1", some "refund", some 99, none, none⟩], [], [], 0⟩

/-- The same transaction log, permuted. -/
def storeC2b : Store :=
  ⟨[], [⟨"u1", some "refund", some 99, none, none⟩,
        ⟨"u1", some "debit", some 3, none, none⟩,
        ⟨"u1", some "credit", some 20, none, none⟩], [], [], 0⟩

/-- Witness for C2 at a concrete permuted pair of logs. -/
theorem claim_C2_witness :
    compute_wallet_balance storeC2a "u1" = compute_wallet_balance storeC2b "u1" :=
  (claim_C2 storeC2a "u1").2 storeC2b (by decide)

/-- C3: with any cutoff hour in [0,23], a time-of-day strictly before
`cutoffHour:00` yields delivery the next day, any time at or after it yields
delivery two days later, and exactly `cutoffHour:00:00` takes the two-day
path. -/
theorem claim_C3 (now : DateTime) (c : ℕ) (hc : c ≤ 23) :
    (now.time.hour < c → get_delivery_date c now = now.day + 1) ∧
    (c ≤ now.time.hour → get_delivery_date c now = now.day + 2) ∧
    (now.time = ⟨c, 0, 0, 0⟩ → get_delivery_date c now = now.day + 2) := by
  refine ⟨fun h => ?_, fun h => ?_, fun h => ?_⟩
  · have hb : PyTime.ltb now.time ⟨c, 0, 0, 0⟩ = true := by
      simp only [PyTime.ltb, decide_eq_true_eq]
      omega
    unfold get_delivery_date
    simp [hb]
  · have hb : PyTime.ltb now.time ⟨c, 0, 0, 0⟩ = false := by
      simp only [PyTime.ltb, decide_eq_false_iff_not]
      omega
    unfold get_delivery_date
    simp [hb]
  · have hb : PyTime.ltb now.time ⟨c, 0, 0, 0⟩ = false := by
      rw [h]
      simp only [PyTime.ltb, decide_eq_false_iff_not]
      omega
    unfold get_delivery_date
    simp [hb]

/-- Witness for C3: 22:59:59 against cutoff 23 ships next day. -/
theorem claim_C3_witness :
    get_delivery_date 23 ⟨100, ⟨22, 59, 59, 0⟩⟩ = 101 :=
  (claim_C3 ⟨100, ⟨22, 59, 59, 0⟩⟩ 23 (by decide)).1 (by decide)

/-- C8: an empty item list is rejected with InvalidInput before anything else
is consulted, and the store is returned unchanged. -/
theorem claim_C8 (store : Store) (now : DateTime) (c : ℕ) (req : PlaceOrderRequest)
    (h : req.items = []) :
    place_order store now c req = (store, .error .invalidInput) := by
  unfold place_order
  rw [if_pos h]

/-- Store with a healthy balance, for the C8 witness. -/
def storeC8 : Store :=
  ⟨[("p1", ⟨some "Milk", some 5, none, some true⟩)],
   [⟨"u1", some "credit", some 100, none, none⟩], [], [], 0⟩

/-- Witness for C8: an empty order fails with InvalidInput even with a
positive balance. -/
theorem claim_C8_witness :
    place_order storeC8 ⟨0, ⟨12, 0, 0, 0⟩⟩ 23 ⟨"u1", []⟩ =
      (storeC8, .error .invalidInput) :=
  claim_C8 storeC8 ⟨0, ⟨12, 0, 0, 0⟩⟩ 23 ⟨"u1", []⟩ rfl

/-- C9: a user id with no matching transactions gets balance 0 from the
wallet-balance endpoint, and the result never depends on the `user`
collection (no existence check). -/
theorem claim_C9 (store : Store) (uid : String)
    (h : ∀ t ∈ store.transactions, t.user_id ≠ uid) :
    wallet_balance store uid = (uid, 0) ∧
    ∀ us : List String, wallet_balance { store with users := us } uid =
      wallet_balance store uid := by
  constructor
  · have hf : store.transactions.filter (fun t => t.user_id = uid) = [] := by
      rw [List.filter_eq_nil_iff]
      intro t ht
      simpa using h t ht
    unfold wallet_balance
    rw [compute_wallet_balance_eq, hf]
    simp [round2]
  · intro us
    rfl

/-- Store whose only transaction belongs to a different user. -/
def storeC9 : Store :=
  ⟨[], [⟨"u1", some "credit", some 20, none, none⟩], [], ["u1"], 0⟩

/-- Witness for C9: an id absent from both the user and transaction
collections gets balance 0. -/
theorem claim_C9_witness : wallet_balance storeC9 "ghost" = ("ghost", 0) :=
  (claim_C9 storeC9 "ghost" (by decide)).1

/-- C10: a product record with no `available` field at all is treated as
available — the verification step accepts it and can never return the
InvalidState error for it. -/
theorem claim_C10 (store : Store) (pid : String) (prod : ProductDoc)
    (h1 : findProduct store pid = some prod) (h2 : prod.available = none) :
    fetchValidated store pid = .ok prod ∧
    ∀ s : String, fetchValidated store pid ≠ .error (.invalidState s) := by
  have hav : prod.available.getD true = true := by rw [h2]; rfl
  unfold fetchValidated
  rw [h1]
  simp [hav]

/-- Store whose product record lacks the `available` field. -/
def storeC10 : Store :=
  ⟨[("p1", ⟨some "Eggs", some 4, none, none⟩)], [], [], [], 0⟩

/-- Witness for C10: the field-less product passes validation. -/
theorem claim_C10_witness :
    fetchValidated storeC10 "p1" = .ok ⟨some "Eggs", some 4, none, none⟩ :=
  (claim_C10 storeC10 "p1" ⟨some "Eggs", some 4, none, none⟩ rfl rfl).1

/-! ### Helper lemmas about place_order -/

lemma round2_sub_round2 (q r : ℚ) :
    round2 (q - round2 r) = round2 q - round2 r := by
  have h : round2 r = ((round (r * 100) : ℤ) : ℚ) / 100 := rfl
  rw [h, round2_sub_cents]

lemma round2_sub_of_round2 (q r : ℚ) :
    round2 (round2 q - round2 r) = round2 q - round2 r := by
  have h : round2 q - round2 r = ((round (q * 100) - round (r * 100) : ℤ) : ℚ) / 100 := by
    unfold round2
    push_cast
    ring
  rw [h, round2_cents]

lemma txnDelta_debit (deb : TxnDoc) (h : deb.type = some "debit") :
    txnDelta deb = -(deb.amount.getD 0) := by
  have hne : deb.type ≠ some "credit" := by
    rw [h]
    simp
  unfold txnDelta
  rw [if_neg hne, if_pos h]

lemma balance_sum_snoc_debit (l : List TxnDoc) (uid : String) (deb : TxnDoc)
    (h1 : deb.user_id = uid) (h2 : deb.type = some "debit") :
    (((l ++ [deb]).filter (fun t => t.user_id = uid)).map txnDelta).sum =
      ((l.filter (fun t => t.user_id = uid)).map txnDelta).sum - deb.amount.getD 0 := by
  rw [List.filter_append, List.map_append, List.sum_append]
  have hf : [deb].filter (fun t => t.user_id = uid) = [deb] := by
    simp [h1]
  rw [hf]
  simp [txnDelta_debit deb h2]
  ring

/-- Inversion of a successful `place_order` run: the lookup succeeded, the
balance check passed, and the returned store and response have exactly the
shapes the code builds. -/
lemma place_order_ok {store : Store} {now : DateTime} {c : ℕ} {req : PlaceOrderRequest}
    {store' : Store} {resp : PlaceOrderResponse}
    (h : place_order store now c req = (store', .ok resp)) :
    ∃ lk, req.items ≠ [] ∧
      buildLookup store (req.items.map (fun i => i.product_id)) = .ok lk ∧
      ¬ compute_wallet_balance store req.user_id <
        round2 (((req.items.map (build_line lk)).map (fun l => l.price * (l.qty : ℚ))).sum) ∧
      store' = { store with
        orders := store.orders ++
          [(genId store.nextId,
            ⟨req.user_id, req.items.map (build_line lk),
             round2 (((req.items.map (build_line lk)).map (fun l => l.price * (l.qty : ℚ))).sum),
             get_delivery_date c now, "placed"⟩)]
        transactions := store.transactions ++
          [⟨req.user_id, some "debit",
            some (round2 (((req.items.map (build_line lk)).map (fun l => l.price * (l.qty : ℚ))).sum)),
            some (genId store.nextId),
            some ("Order " ++ genId store.nextId ++ " payment")⟩]
        nextId := store.nextId + 1 + 1 } ∧
      resp = ⟨genId store.nextId, get_delivery_date c now,
        round2 (((req.items.map (build_line lk)).map (fun l => l.price * (l.qty : ℚ))).sum),
        compute_wallet_balance store' req.user_id, "confirmed"⟩ := by
  by_cases hemp : req.items = []
  · simp only [place_order, if_pos hemp] at h
    exact absurd h (by simp)
  · simp only [place_order, if_neg hemp] at h
    cases hlk : buildLookup store (req.items.map (fun i => i.product_id)) with
    | error e =>
        simp only [hlk] at h
        exact absurd h (by simp)
    | ok lk =>
        simp only [hlk] at h
        by_cases hbal : compute_wallet_balance store req.user_id <
            round2 (((req.items.map (build_line lk)).map (fun l => l.price * (l.qty : ℚ))).sum)
        · rw [if_pos hbal] at h
          exact absurd h (by simp)
        · rw [if_neg hbal] at h
          simp only [createOrder, createTxn] at h
          injection h with h1 h2
          injection h2 with h4
          refine ⟨lk, hemp, rfl, hbal, ?_, ?_⟩
          · rw [← h1]
          · rw [← h4, ← h1]

/-! ### C1 and C4 -/

lemma compute_wallet_balance_snoc_debit (store : Store) (uid : String) (deb : TxnDoc)
    (os : List (String × OrderDoc)) (n : ℕ)
    (h1 : deb.user_id = uid) (h2 : deb.type = some "debit") :
    compute_wallet_balance
      { store with orders := os, transactions := store.transactions ++ [deb], nextId := n }
      uid =
      round2 (((store.transactions.filter (fun t => t.user_id = uid)).map txnDelta).sum -
        deb.amount.getD 0) := by
  rw [compute_wallet_balance_eq]
  dsimp only []
  rw [balance_sum_snoc_debit _ _ _ h1 h2]

/-- C1: a successful `place_order` creates exactly one order record (status
"placed") and exactly one debit transaction; the debit's amount is exactly the
order's subtotal and it references the new order id; and the returned balance
is the post-debit recomputed balance, which equals the old balance minus the
subtotal, rounded to 2 decimals. -/
theorem claim_C1 (store : Store) (now : DateTime) (c : ℕ) (req : PlaceOrderRequest)
    (store' : Store) (resp : PlaceOrderResponse)
    (h : place_order store now c req = (store', .ok resp)) :
    ∃ oid od deb,
      store'.orders = store.orders ++ [(oid, od)] ∧
      od.status = "placed" ∧
      store'.transactions = store.transactions ++ [deb] ∧
      deb.type = some "debit" ∧
      deb.amount = some od.subtotal ∧
      deb.order_id = some oid ∧
      resp.subtotal = od.subtotal ∧
      resp.balance = compute_wallet_balance store' req.user_id ∧
      resp.balance = round2 (compute_wallet_balance store req.user_id - od.subtotal) := by
  obtain ⟨lk, hne, hlk, hbal, hs, hr⟩ := place_order_ok h
  refine ⟨genId store.nextId,
    ⟨req.user_id, req.items.map (build_line lk),
      round2 (((req.items.map (build_line lk)).map (fun l => l.price * (l.qty : ℚ))).sum),
      get_delivery_date c now, "placed"⟩,
    ⟨req.user_id, some "debit",
      some (round2 (((req.items.map (build_line lk)).map (fun l => l.price * (l.qty : ℚ))).sum)),
      some (genId store.nextId),
      some ("Order " ++ genId store.nextId ++ " payment")⟩,
    ?_, rfl, ?_, rfl, rfl, rfl, ?_, ?_, ?_⟩
  · rw [hs]
  · rw [hs]
  · rw [hr]
  · rw [hr]
  · rw [hr, hs]
    dsimp only []
    rw [compute_wallet_balance_snoc_debit store req.user_id _ _ _ rfl rfl]
    rw [compute_wallet_balance_eq store req.user_id]
    dsimp only [Option.getD]
    rw [round2_sub_round2, round2_sub_of_round2]

/-- Store with balance 20 and an available product priced 5, matching the
spec's worked example for C1. -/
def storeC1 : Store :=
  ⟨[("p1", ⟨some "Milk", some 5, none, some true⟩)],
   [⟨"u1", some "credit", some 20, none, none⟩], [], [], 0⟩

/-- Noon on day 0, before any cutoff in range. -/
def noonDay0 : DateTime := ⟨0, ⟨12, 0, 0, 0⟩⟩

/-- The store produced by the successful C1 order (qty 3 of the 5.00 product:
one order of subtotal 15.00, one debit of 15.00 referencing it). -/
def storeC1' : Store :=
  { storeC1 with
      orders := [("id_0", ⟨"u1", [⟨"p1", some "Milk", 5, 3⟩], 15, 1, "placed"⟩)]
      transactions := storeC1.transactions ++
        [⟨"u1", some "debit", some 15, some "id_0", some "Order id_0 payment"⟩]
      nextId := 2 }

lemma place_order_C1_run :
    place_order storeC1 noonDay0 23 ⟨"u1", [⟨"p1", 3⟩]⟩ =
      (storeC1', .ok ⟨"id_0", 1, 15, 5, "confirmed"⟩) := by
  simp only [place_order, buildLookup, fetchValidated, findProduct, lookupProd,
    build_line, compute_wallet_balance, balanceStep, createOrder, createTxn,
    genId, get_delivery_date, PyTime.ltb, storeC1, storeC1', noonDay0,
    List.find?, List.filter, List.foldl, List.map, Option.getD]
  norm_num [round2, round_eq]
  simp [round_eq]
  norm_num
  decide

/-- Witness for C1 on the spec's worked example: balance 20.00, product priced
5.00, qty 3. -/
theorem claim_C1_witness :
    ∃ oid od deb,
      storeC1'.orders = storeC1.orders ++ [(oid, od)] ∧
      od.status = "placed" ∧
      storeC1'.transactions = storeC1.transactions ++ [deb] ∧
      deb.type = some "debit" ∧
      deb.amount = some od.subtotal ∧
      deb.order_id = some oid ∧
      (15 : ℚ) = od.subtotal ∧
      (5 : ℚ) = compute_wallet_balance storeC1' "u1" ∧
      (5 : ℚ) = round2 (compute_wallet_balance storeC1 "u1" - od.subtotal) :=
  claim_C1 storeC1 noonDay0 23 ⟨"u1", [⟨"p1", 3⟩]⟩ storeC1'
    ⟨"id_0", 1, 15, 5, "confirmed"⟩ place_order_C1_run

/-- C4: when validation passes but the balance is strictly below the subtotal,
`place_order` fails with InsufficientFunds carrying the shortfall rounded to 2
decimals, the current balance and the subtotal, and leaves the store
unchanged. -/
theorem claim_C4 (store : Store) (now : DateTime) (c : ℕ) (req : PlaceOrderRequest)
    (lk : List (String × ProductDoc))
    (hne : req.items ≠ [])
    (hlk : buildLookup store (req.items.map (fun i => i.product_id)) = .ok lk)
    (hlt : compute_wallet_balance store req.user_id <
      round2 (((req.items.map (build_line lk)).map (fun l => l.price * (l.qty : ℚ))).sum)) :
    place_order store now c req =
      (store, .error (.insufficientFunds
        (round2
          (round2 (((req.items.map (build_line lk)).map (fun l => l.price * (l.qty : ℚ))).sum) -
            compute_wallet_balance store req.user_id))
        (compute_wallet_balance store req.user_id)
        (round2 (((req.items.map (build_line lk)).map (fun l => l.price * (l.qty : ℚ))).sum)))) := by
  simp only [place_order, if_neg hne, hlk]
  rw [if_pos hlt]

/-- Store with balance 10 and an available product priced 5, matching the
spec's worked example for C4. -/
def storeC4 : Store :=
  ⟨[("p1", ⟨some "Rice", some 5, none, some true⟩)],
   [⟨"u1", some "credit", some 10, none, none⟩], [], [], 0⟩

/-- The lookup the verification loop builds for the C4 witness request. -/
def lkC4 : List (String × ProductDoc) := [("p1", ⟨some "Rice", some 5, none, some true⟩)]

/-- Witness for C4 on the spec's worked example: balance 10.00, subtotal 15.00,
required topup 5.00, store untouched. -/
theorem claim_C4_witness :
    place_order storeC4 noonDay0 23 ⟨"u1", [⟨"p1", 3⟩]⟩ =
      (storeC4, .error (.insufficientFunds 5 10 15)) := by
  have hbal : compute_wallet_balance storeC4 "u1" = 10 := by
    simp only [compute_wallet_balance, storeC4, balanceStep, List.filter, List.foldl,
      Option.getD]
    norm_num [round2, round_eq]
  have hsub :
      round2 (((([⟨"p1", 3⟩] : List PlaceOrderItem).map (build_line lkC4)).map
        (fun l => l.price * (l.qty : ℚ))).sum) = 15 := by
    simp only [build_line, lookupProd, lkC4, List.find?, List.map, Option.getD,
      Option.map_some]
    norm_num [round2, round_eq]
  have h := claim_C4 storeC4 noonDay0 23 ⟨"u1", [⟨"p1", 3⟩]⟩ lkC4 (by simp) rfl
    (by rw [hbal, hsub]; norm_num)
  rw [h, hbal, hsub]
  norm_num [round2, round_eq]

/-! ### C5 and C6 -/

lemma fetchValidated_ok (store : Store) (q : String) (p : ProductDoc)
    (h1 : findProduct store q = some p) (h2 : p.available.getD true = true) :
    fetchValidated store q = .ok p := by
  simp only [fetchValidated, h1, h2]
  simp

lemma fetchValidated_ok_inv (store : Store) (q : String) (p : ProductDoc)
    (h : fetchValidated store q = .ok p) : findProduct store q = some p := by
  unfold fetchValidated at h
  cases hf : findProduct store q with
  | none =>
      rw [hf] at h
      simp at h
  | some r =>
      simp only [hf] at h
      by_cases hb : r.available.getD true = false
      · rw [if_pos hb] at h
        simp at h
      · rw [if_neg hb] at h
        injection h with h'
        rw [h']

lemma buildLookup_error_of_prefix (store : Store) (pre : List String) (pid : String)
    (post : List String) (e : OrderError)
    (hok : ∀ q ∈ pre, ∃ p, findProduct store q = some p ∧ p.available.getD true = true)
    (he : fetchValidated store pid = .error e) :
    buildLookup store (pre ++ pid :: post) = .error e := by
  induction pre with
  | nil => simp only [List.nil_append, buildLookup, he]
  | cons q pre ih =>
      obtain ⟨p, h1, h2⟩ := hok q (List.mem_cons_self q pre)
      have hq : fetchValidated store q = .ok p := fetchValidated_ok store q p h1 h2
      have ih' := ih (fun r hr => hok r (List.mem_cons_of_mem q hr))
      simp only [List.cons_append, buildLookup, hq]
      have ih2 : buildLookup store (pre.append (pid :: post)) = Except.error e := ih'
      rw [ih2]

lemma place_order_lookup_error (store : Store) (now : DateTime) (c : ℕ)
    (req : PlaceOrderRequest) (e : OrderError)
    (hne : req.items ≠ [])
    (he : buildLookup store (req.items.map (fun i => i.product_id)) = .error e) :
    place_order store now c req = (store, .error e) := by
  simp only [place_order, if_neg hne, he]

/-- C5: if the verification loop reaches a requested product id that has no
product record (all ids before it resolving to available products), the call
fails with NotFound naming that id, and the store is unchanged; if it reaches
a product that exists but is unavailable, the call fails with InvalidState
naming that product, and the store is unchanged.  (The loop checks ids in
request order and stops at the first offender.) -/
theorem claim_C5 (store : Store) (now : DateTime) (c : ℕ) (req : PlaceOrderRequest) :
    (∀ pre pid post, req.items.map (fun i => i.product_id) = pre ++ pid :: post →
      (∀ q ∈ pre, ∃ p, findProduct store q = some p ∧ p.available.getD true = true) →
      findProduct store pid = none →
      place_order store now c req = (store, .error (.notFound pid))) ∧
    (∀ pre pid post prod, req.items.map (fun i => i.product_id) = pre ++ pid :: post →
      (∀ q ∈ pre, ∃ p, findProduct store q = some p ∧ p.available.getD true = true) →
      findProduct store pid = some prod → prod.available.getD true = false →
      place_order store now c req = (store, .error (.invalidState (prod.name.getD "")))) := by
  constructor
  · intro pre pid post hmap hok hmiss
    have hne : req.items ≠ [] := by
      intro h0
      rw [h0] at hmap
      exact absurd hmap (by simp)
    refine place_order_lookup_error store now c req _ hne ?_
    rw [hmap]
    exact buildLookup_error_of_prefix store pre pid post _ hok
      (by simp only [fetchValidated, hmiss])
  · intro pre pid post prod hmap hok hfound hunav
    have hne : req.items ≠ [] := by
      intro h0
      rw [h0] at hmap
      exact absurd hmap (by simp)
    refine place_order_lookup_error store now c req _ hne ?_
    rw [hmap]
    refine buildLookup_error_of_prefix store pre pid post _ hok ?_
    simp only [fetchValidated, hfound]
    rw [if_pos hunav]

/-- Store holding one available product and one unavailable product. -/
def storeC5 : Store :=
  ⟨[("p1", ⟨some "Milk", some 5, none, some true⟩),
    ("p2", ⟨some "Beer", some 9, none, some false⟩)],
   [⟨"u1", some "credit", some 100, none, none⟩], [], [], 0⟩

/-- Witness for C5: ordering an id that is not in the catalog fails with
NotFound naming it and leaves the store untouched. -/
theorem claim_C5_witness :
    place_order storeC5 noonDay0 23 ⟨"u1", [⟨"p1", 1⟩, ⟨"p9", 1⟩]⟩ =
      (storeC5, .error (.notFound "p9")) :=
  (claim_C5 storeC5 noonDay0 23 ⟨"u1", [⟨"p1", 1⟩, ⟨"p9", 1⟩]⟩).1 ["p1"] "p9" [] rfl
    (by
      intro q hq
      simp only [List.mem_singleton] at hq
      subst hq
      exact ⟨⟨some "Milk", some 5, none, some true⟩, rfl, rfl⟩)
    rfl

lemma buildLookup_ok_lookupProd (store : Store) (ids : List String)
    (lk : List (String × ProductDoc)) (h : buildLookup store ids = .ok lk) :
    ∀ pid ∈ ids, findProduct store pid = some (lookupProd lk pid) := by
  induction ids generalizing lk with
  | nil =>
      intro pid hpid
      cases hpid
  | cons q rest ih =>
      intro pid hpid
      simp only [buildLookup] at h
      cases hq : fetchValidated store q with
      | error e =>
          rw [hq] at h
          simp at h
      | ok p =>
          rw [hq] at h
          cases hrest : buildLookup store rest with
          | error e =>
              rw [hrest] at h
              simp at h
          | ok l =>
              rw [hrest] at h
              injection h with h'
              subst h'
              rcases List.mem_cons.mp hpid with rfl | hmem
              · have hl : lookupProd ((pid, p) :: l) pid = p := by
                  unfold lookupProd
                  simp [List.find?]
                rw [hl]
                exact fetchValidated_ok_inv store pid p hq
              · by_cases hqq : q = pid
                · subst hqq
                  have hl : lookupProd ((q, p) :: l) q = p := by
                    unfold lookupProd
                    simp [List.find?]
                  rw [hl]
                  exact fetchValidated_ok_inv store q p hq
                · have hl : lookupProd ((q, p) :: l) pid = lookupProd l pid := by
                    unfold lookupProd
                    simp [List.find?, hqq]
                  rw [hl]
                  exact ih l hrest pid hmem

/-- C6: every line of a placed order snapshots name and price from the product
record fetched from the catalog (the request supplies only id and quantity),
the stored subtotal is the rounded sum of price times quantity over the stored
lines, and `update_product` never touches the `order` collection, so existing
orders keep their stored prices and subtotals. -/
theorem claim_C6 (store : Store) (now : DateTime) (c : ℕ) (req : PlaceOrderRequest)
    (store' : Store) (resp : PlaceOrderResponse) :
    (place_order store now c req = (store', .ok resp) →
      ∃ oid od, store'.orders = store.orders ++ [(oid, od)] ∧
        (∀ l ∈ od.items, ∃ prod, findProduct store l.product_id = some prod ∧
          l.name = prod.name ∧ l.price = prod.price.getD 0) ∧
        od.subtotal = round2 ((od.items.map (fun l => l.price * (l.qty : ℚ))).sum)) ∧
    (∀ pid upd, ((update_product store pid upd).1).orders = store.orders) := by
  constructor
  · intro h
    obtain ⟨lk, hne, hlk, hbal, hs, hr⟩ := place_order_ok h
    refine ⟨genId store.nextId,
      ⟨req.user_id, req.items.map (build_line lk),
        round2 (((req.items.map (build_line lk)).map (fun l => l.price * (l.qty : ℚ))).sum),
        get_delivery_date c now, "placed"⟩, ?_, ?_, ?_⟩
    · rw [hs]
    · intro l hl
      obtain ⟨it, hit, rfl⟩ := List.mem_map.mp hl
      exact ⟨lookupProd lk it.product_id,
        buildLookup_ok_lookupProd store _ lk hlk it.product_id
          (List.mem_map_of_mem _ hit), rfl, rfl⟩
    · dsimp only []
  · intro pid upd
    unfold update_product
    by_cases h0 : upd.name = none ∧ upd.price = none ∧ upd.category = none ∧
        upd.image_url = none ∧ upd.available = none
    · rw [if_pos h0]
    · rw [if_neg h0]
      cases hf : findProduct store pid with
      | none => rfl
      | some p => rfl

/-- Witness for C6, reusing the concrete successful order of `storeC1`. -/
theorem claim_C6_witness :
    ∃ oid od, storeC1'.orders = storeC1.orders ++ [(oid, od)] ∧
      (∀ l ∈ od.items, ∃ prod, findProduct storeC1 l.product_id = some prod ∧
        l.name = prod.name ∧ l.price = prod.price.getD 0) ∧
      od.subtotal = round2 ((od.items.map (fun l => l.price * (l.qty : ℚ))).sum) :=
  (claim_C6 storeC1 noonDay0 23 ⟨"u1", [⟨"p1", 3⟩]⟩ storeC1'
    ⟨"id_0", 1, 15, 5, "confirmed"⟩).1 place_order_C1_run

lemma addItem_find? (acc : List SummaryEntry) (it : OrderLine) (pid : String) :
    (addItem acc it).find? (fun e => e.product_id = pid) =
      if it.product_id = pid then
        match acc.find? (fun e => e.product_id = pid) with
        | some e => some { e with total_qty := e.total_qty + it.qty }
        | none => some ⟨it.product_id, it.name, it.qty⟩
      else acc.find? (fun e => e.product_id = pid) := by
  unfold addItem
  by_cases hany : acc.any (fun e => e.product_id = it.product_id)
  · rw [if_pos hany, List.find?_map]
    have hpg : ((fun e : SummaryEntry => decide (e.product_id = pid)) ∘
        (fun e => if e.product_id = it.product_id then
          { e with total_qty := e.total_qty + it.qty } else e)) =
        (fun e : SummaryEntry => decide (e.product_id = pid)) := by
      funext e
      by_cases h : e.product_id = it.product_id <;> simp [Function.comp, h]
    rw [hpg]
    by_cases hpid : it.product_id = pid
    · rw [if_pos hpid]
      cases hfind : acc.find? (fun e => e.product_id = pid) with
      | none =>
          simp only [Option.map_none]
          obtain ⟨x, hx, hxk⟩ := List.any_eq_true.mp hany
          have hx2 : x.product_id = it.product_id := by simpa using hxk
          have hnone := List.find?_eq_none.mp hfind x hx
          simp [hx2, hpid] at hnone
      | some e =>
          have he : e.product_id = pid := by simpa using List.find?_some hfind
          simp [he, hpid]
    · rw [if_neg hpid]
      cases hfind : acc.find? (fun e => e.product_id = pid) with
      | none => simp
      | some e =>
          have he : e.product_id = pid := by simpa using List.find?_some hfind
          have hne : ¬ e.product_id = it.product_id := by
            rw [he]
            exact fun hh => hpid hh.symm
          simp [hne]
  · rw [if_neg hany, List.find?_append]
    have hnokey : ∀ x ∈ acc, ¬ x.product_id = it.product_id := by
      intro x hx
      intro hxk
      exact hany (List.any_eq_true.mpr ⟨x, hx, by simp [hxk]⟩)
    by_cases hpid : it.product_id = pid
    · have hnone : acc.find? (fun e => e.product_id = pid) = none := by
        rw [List.find?_eq_none]
        intro x hx
        simp only [decide_eq_true_eq]
        rw [← hpid]
        exact hnokey x hx
      rw [hnone, if_pos hpid]
      simp [List.find?, hpid]
    · rw [if_neg hpid]
      have hone : ([⟨it.product_id, it.name, it.qty⟩] :
          List SummaryEntry).find? (fun e => e.product_id = pid) = none := by
        simp [List.find?, hpid]
      rw [hone]
      cases acc.find? (fun e => e.product_id = pid) <;> rfl

lemma foldl_addItem_find? (its : List OrderLine) (acc : List SummaryEntry) (pid : String) :
    (its.foldl addItem acc).find? (fun e => e.product_id = pid) =
      match acc.find? (fun e => e.product_id = pid) with
      | some e => some { e with total_qty := e.total_qty +
          ((its.filter (fun l => l.product_id = pid)).map (fun l => l.qty)).sum }
      | none => (its.find? (fun l => l.product_id = pid)).map
          (fun l0 => ⟨pid, l0.name,
            ((its.filter (fun l => l.product_id = pid)).map (fun l => l.qty)).sum⟩) := by
  induction its generalizing acc with
  | nil =>
      rw [List.foldl_nil]
      cases hfind : acc.find? (fun e => e.product_id = pid) with
      | none => simp
      | some e =>
          simp only [List.filter_nil, List.map_nil, List.sum_nil, add_zero]
  | cons it its ih =>
      rw [List.foldl_cons, ih (addItem acc it), addItem_find? acc it pid]
      by_cases hpid : it.product_id = pid
      · rw [if_pos hpid]
        rw [List.filter_cons_of_pos (by simp [hpid]),
          List.find?_cons_of_pos _ (by simp [hpid])]
        cases hfind : acc.find? (fun e => e.product_id = pid) with
        | some e => simp [List.map_cons, List.sum_cons, add_assoc]
        | none => simp [hpid, List.map_cons, List.sum_cons]
      · rw [if_neg hpid]
        rw [List.filter_cons_of_neg (by simp [hpid]),
          List.find?_cons_of_neg _ (by simp [hpid])]

lemma foldl_addItem_flatten (orders : List (String × OrderDoc)) (acc : List SummaryEntry) :
    orders.foldl (fun acc e => e.2.items.foldl addItem acc) acc =
      (orders.flatMap (fun e => e.2.items)).foldl addItem acc := by
  induction orders generalizing acc with
  | nil => rfl
  | cons o os ih => rw [List.foldl_cons, ih, List.flatMap_cons, List.foldl_append]

lemma addItem_keys_nodup (acc : List SummaryEntry) (it : OrderLine)
    (h : (acc.map (fun e => e.product_id)).Nodup) :
    ((addItem acc it).map (fun e => e.product_id)).Nodup := by
  unfold addItem
  by_cases hany : acc.any (fun e => e.product_id = it.product_id)
  · rw [if_pos hany, List.map_map]
    have hkeys : ((fun e : SummaryEntry => e.product_id) ∘
        (fun e => if e.product_id = it.product_id then
          { e with total_qty := e.total_qty + it.qty } else e)) =
        (fun e : SummaryEntry => e.product_id) := by
      funext e
      by_cases hk : e.product_id = it.product_id <;> simp [Function.comp, hk]
    rw [hkeys]
    exact h
  · rw [if_neg hany, List.map_append]
    refine List.Nodup.append h (List.nodup_singleton _) ?_
    intro a ha hb
    simp only [List.map_cons, List.map_nil, List.mem_singleton] at hb
    subst hb
    obtain ⟨x, hx, hxk⟩ := List.mem_map.mp ha
    exact hany (List.any_eq_true.mpr ⟨x, hx, by simp [hxk]⟩)

lemma foldl_addItem_keys_nodup (its : List OrderLine) (acc : List SummaryEntry)
    (h : (acc.map (fun e => e.product_id)).Nodup) :
    (((its.foldl addItem acc)).map (fun e => e.product_id)).Nodup := by
  induction its generalizing acc with
  | nil => exact h
  | cons it its ih => exact ih (addItem acc it) (addItem_keys_nodup acc it h)

lemma summary_filter_eq (store : Store) (now : DateTime) :
    store.orders.filter (fun e => e.2.delivery_date = now.day + 1 ∧ summaryStatus e.2) =
      store.orders.filter (fun e => e.2.delivery_date = now.day + 1 ∧
        (e.2.status = "placed" ∨ e.2.status = "packed")) := by
  apply List.filter_congr
  intro x hx
  simp [summaryStatus]

/-- C7: the fulfillment summary targets literally `now.date + 1` (no cutoff
involved), counts exactly the orders stored for that date with status placed
or packed, and its item list has one entry per product id occurring in those
orders' lines, whose quantity is the total over all those lines and whose name
comes from the first encountered such line. -/
theorem claim_C7 (store : Store) (now : DateTime) :
    (summary_next_morning store now).date = now.day + 1 ∧
    (summary_next_morning store now).order_count =
      (store.orders.filter (fun e => e.2.delivery_date = now.day + 1 ∧
        (e.2.status = "placed" ∨ e.2.status = "packed"))).length ∧
    (((summary_next_morning store now).items.map (fun e => e.product_id))).Nodup ∧
    ∀ pid,
      (summary_next_morning store now).items.find? (fun e => e.product_id = pid) =
        (((store.orders.filter (fun e => e.2.delivery_date = now.day + 1 ∧
            (e.2.status = "placed" ∨ e.2.status = "packed"))).flatMap
            (fun e => e.2.items)).find? (fun l => l.product_id = pid)).map
          (fun l0 => ⟨pid, l0.name,
            ((((store.orders.filter (fun e => e.2.delivery_date = now.day + 1 ∧
                (e.2.status = "placed" ∨ e.2.status = "packed"))).flatMap
                (fun e => e.2.items)).filter (fun l => l.product_id = pid)).map
              (fun l => l.qty)).sum⟩) := by
  simp only [summary_next_morning]
  rw [summary_filter_eq]
  refine ⟨trivial, rfl, ?_, ?_⟩
  · rw [foldl_addItem_flatten]
    exact foldl_addItem_keys_nodup _ [] (by simp)
  · intro pid
    rw [foldl_addItem_flatten, foldl_addItem_find?]
    rfl
